import Mathlib

/-!
# A shallow embedding of the CSC411_RUM Universal Machine interpreter

This file embeds the execution engine of the repository (the decoder in
`src/rumdis.rs` and the dispatch loop `handle_input` in `src/um.rs`) as
executable Lean definitions, and proves properties of one machine cycle.

Modelling conventions:
* 32-bit words are `Nat` values; wherever the Rust code wraps (`wrapping_add`,
  `wrapping_mul`, `as u32` casts) the model takes `% 2 ^ 32` explicitly.
* A Rust `panic!` or out-of-bounds `Vec` index (process abort with non-zero
  status) is the `fault` outcome.
* `std::process::exit(0)` (opcode 7) is the `halt` outcome.
* Standard input is a list of bytes consumed from the front; the bytes a cycle
  writes to standard output (written and flushed) are returned as a list.
* The `Vec` fields of the Rust `VM` struct are lists in the same order:
  `Vec::push` appends at the tail, `Vec::pop` removes the tail element.
-/

namespace RUM

/-! ## Decoder (`src/rumdis.rs`) -/

structure Field where
  width : Nat
  lsb : Nat

def RA : Field := ⟨3, 6⟩
def RB : Field := ⟨3, 3⟩
def RC : Field := ⟨3, 0⟩
def RL : Field := ⟨3, 25⟩
def VL : Field := ⟨25, 0⟩
def OP : Field := ⟨4, 28⟩

def mask (bits : Nat) : Nat := (1 <<< bits) - 1

def get (field : Field) (instruction : Nat) : Nat :=
  (instruction >>> field.lsb) &&& mask field.width

/-! ## Machine state (`struct VM` in `src/um.rs`) -/

structure VM where
  registers : List Nat
  memory : List (List Nat)
  unmap_index_values : List Nat
  program_counter : Nat
deriving Repr, DecidableEq

/-- Outcome of one iteration of the dispatch loop: continue with a new state,
the remaining input and the bytes emitted this cycle; exit cleanly; or abort
with non-zero status (a Rust panic or out-of-bounds index). -/
inductive StepResult where
  | ok (um : VM) (input : List Nat) (output : List Nat)
  | halt
  | fault
deriving Repr, DecidableEq

/-- One iteration of the `loop` in `handle_input` (`src/um.rs`, lines
257-379): fetch `memory[0][program_counter]`, decode, post-increment the
program counter, and run the body selected by the sequential
`if opcode == k` chain.  An opcode field of 14 or 15 matches none of the
branches, so the cycle falls through to the bottom of the loop. -/
def step (um : VM) (input : List Nat) : StepResult :=
  let seg0 := um.memory.getD 0 []
  if um.program_counter < seg0.length then
    let instruction := seg0.getD um.program_counter 0
    let opcode := get OP instruction
    let a := get RA instruction
    let b := get RB instruction
    let c := get RC instruction
    let pc := um.program_counter + 1
    let r := um.registers
    let m := um.memory
    let fl := um.unmap_index_values
    if opcode = 0 then
      .ok ⟨if r.getD c 0 ≠ 0 then r.set a (r.getD b 0) else r, m, fl, pc⟩ input []
    else if opcode = 1 then
      if r.getD b 0 < m.length ∧ r.getD c 0 < (m.getD (r.getD b 0) []).length then
        .ok ⟨r.set a ((m.getD (r.getD b 0) []).getD (r.getD c 0) 0), m, fl, pc⟩ input []
      else .fault
    else if opcode = 2 then
      if r.getD a 0 < m.length ∧ r.getD b 0 < (m.getD (r.getD a 0) []).length then
        .ok ⟨r, m.set (r.getD a 0) ((m.getD (r.getD a 0) []).set (r.getD b 0) (r.getD c 0)),
             fl, pc⟩ input []
      else .fault
    else if opcode = 3 then
      .ok ⟨r.set a ((r.getD b 0 + r.getD c 0) % 2 ^ 32), m, fl, pc⟩ input []
    else if opcode = 4 then
      .ok ⟨r.set a ((r.getD b 0 * r.getD c 0) % 2 ^ 32), m, fl, pc⟩ input []
    else if opcode = 5 then
      if r.getD c 0 = 0 then .fault
      else .ok ⟨r.set a (r.getD b 0 / r.getD c 0), m, fl, pc⟩ input []
    else if opcode = 6 then
      .ok ⟨r.set a ((2 ^ 32 - 1) - (r.getD b 0 &&& r.getD c 0)), m, fl, pc⟩ input []
    else if opcode = 7 then
      .halt
    else if opcode = 8 then
      let new_segment := List.replicate (r.getD c 0) 0
      if fl ≠ [] then
        let id := fl.getLastD 0 % 2 ^ 32
        if id < m.length then
          .ok ⟨r.set b id, m.set id new_segment, fl.dropLast, pc⟩ input []
        else .fault
      else
        let m2 := m ++ [new_segment]
        .ok ⟨r.set b ((m2.length - 1) % 2 ^ 32), m2, fl, pc⟩ input []
    else if opcode = 9 then
      if r.getD c 0 = 0 then .fault
      else .ok ⟨r, m, fl ++ [r.getD c 0], pc⟩ input []
    else if opcode = 10 then
      if 255 < r.getD c 0 then .fault
      else .ok ⟨r, m, fl, pc⟩ input [r.getD c 0]
    else if opcode = 11 then
      match input with
      | x :: rest => .ok ⟨r.set c (x % 256), m, fl, pc⟩ rest []
      | [] => .ok ⟨r.set c (2 ^ 32 - 1), m, fl, pc⟩ [] []
    else if opcode = 12 then
      if r.getD b 0 ≠ 0 then
        if r.getD b 0 < m.length then
          .ok ⟨r, m.set 0 (m.getD (r.getD b 0) []), fl, r.getD c 0⟩ input []
        else .fault
      else .ok ⟨r, m, fl, r.getD c 0⟩ input []
    else if opcode = 13 then
      .ok ⟨r.set (get RL instruction) (get VL instruction), m, fl, pc⟩ input []
    else
      .ok ⟨r, m, fl, pc⟩ input []
  else .fault

/-- The initial machine built at the top of `handle_input`: eight zeroed
registers, the program as segment zero, empty free list, program counter 0. -/
def initVM (instructions : List Nat) : VM :=
  ⟨List.replicate 8 0, [instructions], [], 0⟩

/-- The checks `handle_input` performs once, before entering the loop
(`src/um.rs`, lines 247-255): the `program_counter > 0` check never fires
(the counter was just set to 0), and then the opcode of `memory[0][0]` is
compared against 13.  Indexing an empty program also aborts.  Returns `true`
when those pre-loop checks abort the process. -/
def preloopFaults (instructions : List Nat) : Bool :=
  match instructions with
  | [] => true
  | w :: _ => decide (13 < get OP w)

/-- The spec's `map(length)` operation, written from the spec's words (for
comparison with the opcode-8 branch of `step`): create a zero-filled sequence
of `length` words; if the free list is non-empty, pop an identifier `id`
(the most recently pushed one), store the new sequence at `id` and return
`id`; otherwise append the sequence to the table and return the new tail
index.  Returns the new table, the new free list and the identifier. -/
def map_spec (memory : List (List Nat)) (freeList : List Nat) (length : Nat) :
    List (List Nat) × List Nat × Nat :=
  let seg := List.replicate length 0
  match freeList.getLast? with
  | some id => (memory.set id seg, freeList.dropLast, id)
  | none => (memory ++ [seg], freeList, memory.length)

/-- The opcode-8 (Map Segment) algorithm as the code actually implements it,
stated for comparison with `step`: build a zero-filled sequence of `length`
words; if the free list is non-empty, pop the most recently pushed identifier
and reduce it modulo `2^32` (the `usize`-to-`u32` cast at `src/um.rs` line
312); if the reduced identifier indexes the table, store the sequence there
and return it, otherwise the machine aborts (`none`, the out-of-bounds store
at line 315); if the free list is empty, append the sequence and return the
new tail index reduced modulo `2^32` (the cast at line 320). -/
def map_amended (memory : List (List Nat)) (freeList : List Nat) (length : Nat) :
    Option (List (List Nat) × List Nat × Nat) :=
  let seg := List.replicate length 0
  match freeList.getLast? with
  | some id =>
    if id % 2 ^ 32 < memory.length then
      some (memory.set (id % 2 ^ 32) seg, freeList.dropLast, id % 2 ^ 32)
    else none
  | none => some (memory ++ [seg], freeList, ((memory ++ [seg]).length - 1) % 2 ^ 32)

/-! ## Per-opcode unfoldings of `step`

Shared lemmas that reduce `step` on a state whose fetched word has a known
opcode to the branch of the dispatch chain that the Rust loop runs. -/

theorem step_fault_oob (r : List Nat) (m : List (List Nat)) (fl : List Nat)
    (pc : Nat) (input : List Nat)
    (hpc : ¬ pc < (m.getD 0 []).length) :
    step ⟨r, m, fl, pc⟩ input = .fault := by
  simp only [step]
  rw [if_neg hpc]

theorem step_op0 (r : List Nat) (m : List (List Nat)) (fl : List Nat)
    (pc : Nat) (input : List Nat) (w : Nat)
    (hpc : pc < (m.getD 0 []).length)
    (hw : (m.getD 0 []).getD pc 0 = w)
    (hop : get OP w = 0) :
    step ⟨r, m, fl, pc⟩ input =
      .ok ⟨if r.getD (get RC w) 0 ≠ 0 then r.set (get RA w) (r.getD (get RB w) 0) else r,
           m, fl, pc + 1⟩ input [] := by
  simp only [step]
  rw [if_pos hpc, hw]
  simp only [if_pos hop]

theorem step_op1 (r : List Nat) (m : List (List Nat)) (fl : List Nat)
    (pc : Nat) (input : List Nat) (w : Nat)
    (hpc : pc < (m.getD 0 []).length)
    (hw : (m.getD 0 []).getD pc 0 = w)
    (hop : get OP w = 1) :
    step ⟨r, m, fl, pc⟩ input =
      if r.getD (get RB w) 0 < m.length ∧
         r.getD (get RC w) 0 < (m.getD (r.getD (get RB w) 0) []).length then
        .ok ⟨r.set (get RA w) ((m.getD (r.getD (get RB w) 0) []).getD (r.getD (get RC w) 0) 0),
             m, fl, pc + 1⟩ input []
      else .fault := by
  have h0 : get OP w ≠ 0 := by omega
  simp only [step]
  rw [if_pos hpc, hw]
  simp only [if_neg h0, if_pos hop]

theorem step_op2 (r : List Nat) (m : List (List Nat)) (fl : List Nat)
    (pc : Nat) (input : List Nat) (w : Nat)
    (hpc : pc < (m.getD 0 []).length)
    (hw : (m.getD 0 []).getD pc 0 = w)
    (hop : get OP w = 2) :
    step ⟨r, m, fl, pc⟩ input =
      if r.getD (get RA w) 0 < m.length ∧
         r.getD (get RB w) 0 < (m.getD (r.getD (get RA w) 0) []).length then
        .ok ⟨r, m.set (r.getD (get RA w) 0)
               ((m.getD (r.getD (get RA w) 0) []).set (r.getD (get RB w) 0) (r.getD (get RC w) 0)),
             fl, pc + 1⟩ input []
      else .fault := by
  have h0 : get OP w ≠ 0 := by omega
  have h1 : get OP w ≠ 1 := by omega
  simp only [step]
  rw [if_pos hpc, hw]
  simp only [if_neg h0, if_neg h1, if_pos hop]

theorem step_op3 (r : List Nat) (m : List (List Nat)) (fl : List Nat)
    (pc : Nat) (input : List Nat) (w : Nat)
    (hpc : pc < (m.getD 0 []).length)
    (hw : (m.getD 0 []).getD pc 0 = w)
    (hop : get OP w = 3) :
    step ⟨r, m, fl, pc⟩ input =
      .ok ⟨r.set (get RA w) ((r.getD (get RB w) 0 + r.getD (get RC w) 0) % 2 ^ 32),
           m, fl, pc + 1⟩ input [] := by
  have h0 : get OP w ≠ 0 := by omega
  have h1 : get OP w ≠ 1 := by omega
  have h2 : get OP w ≠ 2 := by omega
  simp only [step]
  rw [if_pos hpc, hw]
  simp only [if_neg h0, if_neg h1, if_neg h2, if_pos hop]

theorem step_op4 (r : List Nat) (m : List (List Nat)) (fl : List Nat)
    (pc : Nat) (input : List Nat) (w : Nat)
    (hpc : pc < (m.getD 0 []).length)
    (hw : (m.getD 0 []).getD pc 0 = w)
    (hop : get OP w = 4) :
    step ⟨r, m, fl, pc⟩ input =
      .ok ⟨r.set (get RA w) ((r.getD (get RB w) 0 * r.getD (get RC w) 0) % 2 ^ 32),
           m, fl, pc + 1⟩ input [] := by
  have h0 : get OP w ≠ 0 := by omega
  have h1 : get OP w ≠ 1 := by omega
  have h2 : get OP w ≠ 2 := by omega
  have h3 : get OP w ≠ 3 := by omega
  simp only [step]
  rw [if_pos hpc, hw]
  simp only [if_neg h0, if_neg h1, if_neg h2, if_neg h3, if_pos hop]

theorem step_op5 (r : List Nat) (m : List (List Nat)) (fl : List Nat)
    (pc : Nat) (input : List Nat) (w : Nat)
    (hpc : pc < (m.getD 0 []).length)
    (hw : (m.getD 0 []).getD pc 0 = w)
    (hop : get OP w = 5) :
    step ⟨r, m, fl, pc⟩ input =
      if r.getD (get RC w) 0 = 0 then .fault
      else .ok ⟨r.set (get RA w) (r.getD (get RB w) 0 / r.getD (get RC w) 0),
                m, fl, pc + 1⟩ input [] := by
  have h0 : get OP w ≠ 0 := by omega
  have h1 : get OP w ≠ 1 := by omega
  have h2 : get OP w ≠ 2 := by omega
  have h3 : get OP w ≠ 3 := by omega
  have h4 : get OP w ≠ 4 := by omega
  simp only [step]
  rw [if_pos hpc, hw]
  simp only [if_neg h0, if_neg h1, if_neg h2, if_neg h3, if_neg h4, if_pos hop]

theorem step_op6 (r : List Nat) (m : List (List Nat)) (fl : List Nat)
    (pc : Nat) (input : List Nat) (w : Nat)
    (hpc : pc < (m.getD 0 []).length)
    (hw : (m.getD 0 []).getD pc 0 = w)
    (hop : get OP w = 6) :
    step ⟨r, m, fl, pc⟩ input =
      .ok ⟨r.set (get RA w) (2 ^ 32 - 1 - (r.getD (get RB w) 0 &&& r.getD (get RC w) 0)),
           m, fl, pc + 1⟩ input [] := by
  have h0 : get OP w ≠ 0 := by omega
  have h1 : get OP w ≠ 1 := by omega
  have h2 : get OP w ≠ 2 := by omega
  have h3 : get OP w ≠ 3 := by omega
  have h4 : get OP w ≠ 4 := by omega
  have h5 : get OP w ≠ 5 := by omega
  simp only [step]
  rw [if_pos hpc, hw]
  simp only [if_neg h0, if_neg h1, if_neg h2, if_neg h3, if_neg h4, if_neg h5, if_pos hop]

theorem step_op7 (r : List Nat) (m : List (List Nat)) (fl : List Nat)
    (pc : Nat) (input : List Nat) (w : Nat)
    (hpc : pc < (m.getD 0 []).length)
    (hw : (m.getD 0 []).getD pc 0 = w)
    (hop : get OP w = 7) :
    step ⟨r, m, fl, pc⟩ input = .halt := by
  have h0 : get OP w ≠ 0 := by omega
  have h1 : get OP w ≠ 1 := by omega
  have h2 : get OP w ≠ 2 := by omega
  have h3 : get OP w ≠ 3 := by omega
  have h4 : get OP w ≠ 4 := by omega
  have h5 : get OP w ≠ 5 := by omega
  have h6 : get OP w ≠ 6 := by omega
  simp only [step]
  rw [if_pos hpc, hw]
  simp only [if_neg h0, if_neg h1, if_neg h2, if_neg h3, if_neg h4, if_neg h5, if_neg h6,
    if_pos hop]

theorem step_op8 (r : List Nat) (m : List (List Nat)) (fl : List Nat)
    (pc : Nat) (input : List Nat) (w : Nat)
    (hpc : pc < (m.getD 0 []).length)
    (hw : (m.getD 0 []).getD pc 0 = w)
    (hop : get OP w = 8) :
    step ⟨r, m, fl, pc⟩ input =
      if fl ≠ [] then
        if fl.getLastD 0 % 2 ^ 32 < m.length then
          .ok ⟨r.set (get RB w) (fl.getLastD 0 % 2 ^ 32),
               m.set (fl.getLastD 0 % 2 ^ 32) (List.replicate (r.getD (get RC w) 0) 0),
               fl.dropLast, pc + 1⟩ input []
        else .fault
      else
        .ok ⟨r.set (get RB w) (((m ++ [List.replicate (r.getD (get RC w) 0) 0]).length - 1) % 2 ^ 32),
             m ++ [List.replicate (r.getD (get RC w) 0) 0], fl, pc + 1⟩ input [] := by
  have h0 : get OP w ≠ 0 := by omega
  have h1 : get OP w ≠ 1 := by omega
  have h2 : get OP w ≠ 2 := by omega
  have h3 : get OP w ≠ 3 := by omega
  have h4 : get OP w ≠ 4 := by omega
  have h5 : get OP w ≠ 5 := by omega
  have h6 : get OP w ≠ 6 := by omega
  have h7 : get OP w ≠ 7 := by omega
  simp only [step]
  rw [if_pos hpc, hw]
  simp only [if_neg h0, if_neg h1, if_neg h2, if_neg h3, if_neg h4, if_neg h5, if_neg h6,
    if_neg h7, if_pos hop]

theorem step_op9 (r : List Nat) (m : List (List Nat)) (fl : List Nat)
    (pc : Nat) (input : List Nat) (w : Nat)
    (hpc : pc < (m.getD 0 []).length)
    (hw : (m.getD 0 []).getD pc 0 = w)
    (hop : get OP w = 9) :
    step ⟨r, m, fl, pc⟩ input =
      if r.getD (get RC w) 0 = 0 then .fault
      else .ok ⟨r, m, fl ++ [r.getD (get RC w) 0], pc + 1⟩ input [] := by
  have h0 : get OP w ≠ 0 := by omega
  have h1 : get OP w ≠ 1 := by omega
  have h2 : get OP w ≠ 2 := by omega
  have h3 : get OP w ≠ 3 := by omega
  have h4 : get OP w ≠ 4 := by omega
  have h5 : get OP w ≠ 5 := by omega
  have h6 : get OP w ≠ 6 := by omega
  have h7 : get OP w ≠ 7 := by omega
  have h8 : get OP w ≠ 8 := by omega
  simp only [step]
  rw [if_pos hpc, hw]
  simp only [if_neg h0, if_neg h1, if_neg h2, if_neg h3, if_neg h4, if_neg h5, if_neg h6,
    if_neg h7, if_neg h8, if_pos hop]

theorem step_op10 (r : List Nat) (m : List (List Nat)) (fl : List Nat)
    (pc : Nat) (input : List Nat) (w : Nat)
    (hpc : pc < (m.getD 0 []).length)
    (hw : (m.getD 0 []).getD pc 0 = w)
    (hop : get OP w = 10) :
    step ⟨r, m, fl, pc⟩ input =
      if 255 < r.getD (get RC w) 0 then .fault
      else .ok ⟨r, m, fl, pc + 1⟩ input [r.getD (get RC w) 0] := by
  have h0 : get OP w ≠ 0 := by omega
  have h1 : get OP w ≠ 1 := by omega
  have h2 : get OP w ≠ 2 := by omega
  have h3 : get OP w ≠ 3 := by omega
  have h4 : get OP w ≠ 4 := by omega
  have h5 : get OP w ≠ 5 := by omega
  have h6 : get OP w ≠ 6 := by omega
  have h7 : get OP w ≠ 7 := by omega
  have h8 : get OP w ≠ 8 := by omega
  have h9 : get OP w ≠ 9 := by omega
  simp only [step]
  rw [if_pos hpc, hw]
  simp only [if_neg h0, if_neg h1, if_neg h2, if_neg h3, if_neg h4, if_neg h5, if_neg h6,
    if_neg h7, if_neg h8, if_neg h9, if_pos hop]

theorem step_op11 (r : List Nat) (m : List (List Nat)) (fl : List Nat)
    (pc : Nat) (input : List Nat) (w : Nat)
    (hpc : pc < (m.getD 0 []).length)
    (hw : (m.getD 0 []).getD pc 0 = w)
    (hop : get OP w = 11) :
    step ⟨r, m, fl, pc⟩ input =
      match input with
      | x :: rest => .ok ⟨r.set (get RC w) (x % 256), m, fl, pc + 1⟩ rest []
      | [] => .ok ⟨r.set (get RC w) (2 ^ 32 - 1), m, fl, pc + 1⟩ [] [] := by
  have h0 : get OP w ≠ 0 := by omega
  have h1 : get OP w ≠ 1 := by omega
  have h2 : get OP w ≠ 2 := by omega
  have h3 : get OP w ≠ 3 := by omega
  have h4 : get OP w ≠ 4 := by omega
  have h5 : get OP w ≠ 5 := by omega
  have h6 : get OP w ≠ 6 := by omega
  have h7 : get OP w ≠ 7 := by omega
  have h8 : get OP w ≠ 8 := by omega
  have h9 : get OP w ≠ 9 := by omega
  have hA : get OP w ≠ 10 := by omega
  simp only [step]
  rw [if_pos hpc, hw]
  simp only [if_neg h0, if_neg h1, if_neg h2, if_neg h3, if_neg h4, if_neg h5, if_neg h6,
    if_neg h7, if_neg h8, if_neg h9, if_neg hA, if_pos hop]

theorem step_op12 (r : List Nat) (m : List (List Nat)) (fl : List Nat)
    (pc : Nat) (input : List Nat) (w : Nat)
    (hpc : pc < (m.getD 0 []).length)
    (hw : (m.getD 0 []).getD pc 0 = w)
    (hop : get OP w = 12) :
    step ⟨r, m, fl, pc⟩ input =
      if r.getD (get RB w) 0 ≠ 0 then
        if r.getD (get RB w) 0 < m.length then
          .ok ⟨r, m.set 0 (m.getD (r.getD (get RB w) 0) []), fl,
               r.getD (get RC w) 0⟩ input []
        else .fault
      else .ok ⟨r, m, fl, r.getD (get RC w) 0⟩ input [] := by
  have h0 : get OP w ≠ 0 := by omega
  have h1 : get OP w ≠ 1 := by omega
  have h2 : get OP w ≠ 2 := by omega
  have h3 : get OP w ≠ 3 := by omega
  have h4 : get OP w ≠ 4 := by omega
  have h5 : get OP w ≠ 5 := by omega
  have h6 : get OP w ≠ 6 := by omega
  have h7 : get OP w ≠ 7 := by omega
  have h8 : get OP w ≠ 8 := by omega
  have h9 : get OP w ≠ 9 := by omega
  have hA : get OP w ≠ 10 := by omega
  have hB : get OP w ≠ 11 := by omega
  simp only [step]
  rw [if_pos hpc, hw]
  simp only [if_neg h0, if_neg h1, if_neg h2, if_neg h3, if_neg h4, if_neg h5, if_neg h6,
    if_neg h7, if_neg h8, if_neg h9, if_neg hA, if_neg hB, if_pos hop]

theorem step_op13 (r : List Nat) (m : List (List Nat)) (fl : List Nat)
    (pc : Nat) (input : List Nat) (w : Nat)
    (hpc : pc < (m.getD 0 []).length)
    (hw : (m.getD 0 []).getD pc 0 = w)
    (hop : get OP w = 13) :
    step ⟨r, m, fl, pc⟩ input =
      .ok ⟨r.set (get RL w) (get VL w), m, fl, pc + 1⟩ input [] := by
  have h0 : get OP w ≠ 0 := by omega
  have h1 : get OP w ≠ 1 := by omega
  have h2 : get OP w ≠ 2 := by omega
  have h3 : get OP w ≠ 3 := by omega
  have h4 : get OP w ≠ 4 := by omega
  have h5 : get OP w ≠ 5 := by omega
  have h6 : get OP w ≠ 6 := by omega
  have h7 : get OP w ≠ 7 := by omega
  have h8 : get OP w ≠ 8 := by omega
  have h9 : get OP w ≠ 9 := by omega
  have hA : get OP w ≠ 10 := by omega
  have hB : get OP w ≠ 11 := by omega
  have hC : get OP w ≠ 12 := by omega
  simp only [step]
  rw [if_pos hpc, hw]
  simp only [if_neg h0, if_neg h1, if_neg h2, if_neg h3, if_neg h4, if_neg h5, if_neg h6,
    if_neg h7, if_neg h8, if_neg h9, if_neg hA, if_neg hB, if_neg hC, if_pos hop]

theorem step_opHigh (r : List Nat) (m : List (List Nat)) (fl : List Nat)
    (pc : Nat) (input : List Nat) (w : Nat)
    (hpc : pc < (m.getD 0 []).length)
    (hw : (m.getD 0 []).getD pc 0 = w)
    (hop : 13 < get OP w) :
    step ⟨r, m, fl, pc⟩ input = .ok ⟨r, m, fl, pc + 1⟩ input [] := by
  have h0 : get OP w ≠ 0 := by omega
  have h1 : get OP w ≠ 1 := by omega
  have h2 : get OP w ≠ 2 := by omega
  have h3 : get OP w ≠ 3 := by omega
  have h4 : get OP w ≠ 4 := by omega
  have h5 : get OP w ≠ 5 := by omega
  have h6 : get OP w ≠ 6 := by omega
  have h7 : get OP w ≠ 7 := by omega
  have h8 : get OP w ≠ 8 := by omega
  have h9 : get OP w ≠ 9 := by omega
  have hA : get OP w ≠ 10 := by omega
  have hB : get OP w ≠ 11 := by omega
  have hC : get OP w ≠ 12 := by omega
  have hD : get OP w ≠ 13 := by omega
  simp only [step]
  rw [if_pos hpc, hw]
  simp only [if_neg h0, if_neg h1, if_neg h2, if_neg h3, if_neg h4, if_neg h5, if_neg h6,
    if_neg h7, if_neg h8, if_neg h9, if_neg hA, if_neg hB, if_neg hC, if_neg hD]

/-! ## Small list facts used below -/

theorem getD_set_ne {α : Type} (l : List α) (i j : Nat) (a d : α) (h : i ≠ j) :
    (l.set i a).getD j d = l.getD j d := by
  rw [List.getD_eq_getElem?_getD, List.getD_eq_getElem?_getD, List.getElem?_set_ne h]

theorem getD_set_self {α : Type} (l : List α) (i : Nat) (a d : α) (h : i < l.length) :
    (l.set i a).getD i d = a := by
  rw [List.getD_eq_getElem?_getD, List.getElem?_set_eq_of_lt a h]
  rfl

theorem getD_bound (l : List Nat) (c B : Nat) (hB : 0 < B)
    (h : ∀ x ∈ l, x < B) : l.getD c 0 < B := by
  by_cases hc : c < l.length
  · rw [List.getD_eq_getElem?_getD, List.getElem?_eq_getElem hc]
    exact h _ (List.getElem_mem hc)
  · rw [List.getD_eq_getElem?_getD, List.getElem?_eq_none (by omega)]
    exact hB

/-- No cycle ever pushes identifier 0 onto the free list: if 0 is not among
the unmap indices before a successful cycle, it is not among them after
(opcode 9, the only push, refuses `R[C] = 0`; opcode 8 only pops). -/
theorem step_freelist_zero (um : VM) (input : List Nat) (vm2 : VM)
    (inp2 outp2 : List Nat)
    (h0 : 0 ∉ um.unmap_index_values)
    (h : step um input = .ok vm2 inp2 outp2) :
    0 ∉ vm2.unmap_index_values := by
  obtain ⟨r, m, fl, pc⟩ := um
  by_cases hpc : pc < (m.getD 0 []).length
  · have hople : get OP ((m.getD 0 []).getD pc 0) ≤ 15 := by
      have h1 : get OP ((m.getD 0 []).getD pc 0) ≤ mask OP.width := Nat.and_le_right
      have h2 : mask OP.width = 15 := rfl
      omega
    have hcase : get OP ((m.getD 0 []).getD pc 0) = 0 ∨
        get OP ((m.getD 0 []).getD pc 0) = 1 ∨ get OP ((m.getD 0 []).getD pc 0) = 2 ∨
        get OP ((m.getD 0 []).getD pc 0) = 3 ∨ get OP ((m.getD 0 []).getD pc 0) = 4 ∨
        get OP ((m.getD 0 []).getD pc 0) = 5 ∨ get OP ((m.getD 0 []).getD pc 0) = 6 ∨
        get OP ((m.getD 0 []).getD pc 0) = 7 ∨ get OP ((m.getD 0 []).getD pc 0) = 8 ∨
        get OP ((m.getD 0 []).getD pc 0) = 9 ∨ get OP ((m.getD 0 []).getD pc 0) = 10 ∨
        get OP ((m.getD 0 []).getD pc 0) = 11 ∨ get OP ((m.getD 0 []).getD pc 0) = 12 ∨
        get OP ((m.getD 0 []).getD pc 0) = 13 ∨ 13 < get OP ((m.getD 0 []).getD pc 0) := by
      omega
    rcases hcase with hop|hop|hop|hop|hop|hop|hop|hop|hop|hop|hop|hop|hop|hop|hop
    · rw [step_op0 r m fl pc input _ hpc rfl hop] at h
      injection h with h1 h2 h3
      subst h1
      exact h0
    · rw [step_op1 r m fl pc input _ hpc rfl hop] at h
      split at h
      · injection h with h1 h2 h3
        subst h1
        exact h0
      · exact StepResult.noConfusion h
    · rw [step_op2 r m fl pc input _ hpc rfl hop] at h
      split at h
      · injection h with h1 h2 h3
        subst h1
        exact h0
      · exact StepResult.noConfusion h
    · rw [step_op3 r m fl pc input _ hpc rfl hop] at h
      injection h with h1 h2 h3
      subst h1
      exact h0
    · rw [step_op4 r m fl pc input _ hpc rfl hop] at h
      injection h with h1 h2 h3
      subst h1
      exact h0
    · rw [step_op5 r m fl pc input _ hpc rfl hop] at h
      split at h
      · exact StepResult.noConfusion h
      · injection h with h1 h2 h3
        subst h1
        exact h0
    · rw [step_op6 r m fl pc input _ hpc rfl hop] at h
      injection h with h1 h2 h3
      subst h1
      exact h0
    · rw [step_op7 r m fl pc input _ hpc rfl hop] at h
      exact StepResult.noConfusion h
    · rw [step_op8 r m fl pc input _ hpc rfl hop] at h
      split at h
      · split at h
        · injection h with h1 h2 h3
          subst h1
          exact fun hx => h0 ((List.dropLast_sublist _).subset hx)
        · exact StepResult.noConfusion h
      · injection h with h1 h2 h3
        subst h1
        exact h0
    · rw [step_op9 r m fl pc input _ hpc rfl hop] at h
      by_cases hcnd : r.getD (get RC ((m.getD 0 []).getD pc 0)) 0 = 0
      · rw [if_pos hcnd] at h
        exact StepResult.noConfusion h
      · rw [if_neg hcnd] at h
        injection h with h1 h2 h3
        subst h1
        intro hx
        rcases List.mem_append.mp hx with hx1 | hx1
        · exact h0 hx1
        · rw [List.mem_singleton] at hx1
          exact hcnd hx1.symm
    · rw [step_op10 r m fl pc input _ hpc rfl hop] at h
      split at h
      · exact StepResult.noConfusion h
      · injection h with h1 h2 h3
        subst h1
        exact h0
    · rw [step_op11 r m fl pc input _ hpc rfl hop] at h
      split at h
      · injection h with h1 h2 h3
        subst h1
        exact h0
      · injection h with h1 h2 h3
        subst h1
        exact h0
    · rw [step_op12 r m fl pc input _ hpc rfl hop] at h
      split at h
      · split at h
        · injection h with h1 h2 h3
          subst h1
          exact h0
        · exact StepResult.noConfusion h
      · injection h with h1 h2 h3
        subst h1
        exact h0
    · rw [step_op13 r m fl pc input _ hpc rfl hop] at h
      injection h with h1 h2 h3
      subst h1
      exact h0
    · rw [step_opHigh r m fl pc input _ hpc rfl hop] at h
      injection h with h1 h2 h3
      subst h1
      exact h0
  · rw [step_fault_oob r m fl pc input hpc] at h
    exact StepResult.noConfusion h

/-- Every free-list entry stays below `2^32` across a successful cycle, as
long as the registers hold 32-bit values: the only push (opcode 9) pushes a
register value, and opcode 8 only pops. -/
theorem step_freelist_u32 (um : VM) (input : List Nat) (vm2 : VM)
    (inp2 outp2 : List Nat)
    (hreg : ∀ x ∈ um.registers, x < 2 ^ 32)
    (hfl : ∀ x ∈ um.unmap_index_values, x < 2 ^ 32)
    (h : step um input = .ok vm2 inp2 outp2) :
    ∀ x ∈ vm2.unmap_index_values, x < 2 ^ 32 := by
  obtain ⟨r, m, fl, pc⟩ := um
  by_cases hpc : pc < (m.getD 0 []).length
  · have hople : get OP ((m.getD 0 []).getD pc 0) ≤ 15 := by
      have h1 : get OP ((m.getD 0 []).getD pc 0) ≤ mask OP.width := Nat.and_le_right
      have h2 : mask OP.width = 15 := rfl
      omega
    have hcase : get OP ((m.getD 0 []).getD pc 0) = 0 ∨
        get OP ((m.getD 0 []).getD pc 0) = 1 ∨ get OP ((m.getD 0 []).getD pc 0) = 2 ∨
        get OP ((m.getD 0 []).getD pc 0) = 3 ∨ get OP ((m.getD 0 []).getD pc 0) = 4 ∨
        get OP ((m.getD 0 []).getD pc 0) = 5 ∨ get OP ((m.getD 0 []).getD pc 0) = 6 ∨
        get OP ((m.getD 0 []).getD pc 0) = 7 ∨ get OP ((m.getD 0 []).getD pc 0) = 8 ∨
        get OP ((m.getD 0 []).getD pc 0) = 9 ∨ get OP ((m.getD 0 []).getD pc 0) = 10 ∨
        get OP ((m.getD 0 []).getD pc 0) = 11 ∨ get OP ((m.getD 0 []).getD pc 0) = 12 ∨
        get OP ((m.getD 0 []).getD pc 0) = 13 ∨ 13 < get OP ((m.getD 0 []).getD pc 0) := by
      omega
    rcases hcase with hop|hop|hop|hop|hop|hop|hop|hop|hop|hop|hop|hop|hop|hop|hop
    · rw [step_op0 r m fl pc input _ hpc rfl hop] at h
      injection h with h1 h2 h3
      subst h1
      exact hfl
    · rw [step_op1 r m fl pc input _ hpc rfl hop] at h
      split at h
      · injection h with h1 h2 h3
        subst h1
        exact hfl
      · exact StepResult.noConfusion h
    · rw [step_op2 r m fl pc input _ hpc rfl hop] at h
      split at h
      · injection h with h1 h2 h3
        subst h1
        exact hfl
      · exact StepResult.noConfusion h
    · rw [step_op3 r m fl pc input _ hpc rfl hop] at h
      injection h with h1 h2 h3
      subst h1
      exact hfl
    · rw [step_op4 r m fl pc input _ hpc rfl hop] at h
      injection h with h1 h2 h3
      subst h1
      exact hfl
    · rw [step_op5 r m fl pc input _ hpc rfl hop] at h
      split at h
      · exact StepResult.noConfusion h
      · injection h with h1 h2 h3
        subst h1
        exact hfl
    · rw [step_op6 r m fl pc input _ hpc rfl hop] at h
      injection h with h1 h2 h3
      subst h1
      exact hfl
    · rw [step_op7 r m fl pc input _ hpc rfl hop] at h
      exact StepResult.noConfusion h
    · rw [step_op8 r m fl pc input _ hpc rfl hop] at h
      split at h
      · split at h
        · injection h with h1 h2 h3
          subst h1
          exact fun x hx => hfl x ((List.dropLast_sublist _).subset hx)
        · exact StepResult.noConfusion h
      · injection h with h1 h2 h3
        subst h1
        exact hfl
    · rw [step_op9 r m fl pc input _ hpc rfl hop] at h
      by_cases hcnd : r.getD (get RC ((m.getD 0 []).getD pc 0)) 0 = 0
      · rw [if_pos hcnd] at h
        exact StepResult.noConfusion h
      · rw [if_neg hcnd] at h
        injection h with h1 h2 h3
        subst h1
        intro x hx
        rcases List.mem_append.mp hx with hx1 | hx1
        · exact hfl x hx1
        · rw [List.mem_singleton] at hx1
          rw [hx1]
          exact getD_bound r (get RC ((m.getD 0 []).getD pc 0)) (2 ^ 32) (by decide) hreg
    · rw [step_op10 r m fl pc input _ hpc rfl hop] at h
      split at h
      · exact StepResult.noConfusion h
      · injection h with h1 h2 h3
        subst h1
        exact hfl
    · rw [step_op11 r m fl pc input _ hpc rfl hop] at h
      split at h
      · injection h with h1 h2 h3
        subst h1
        exact hfl
      · injection h with h1 h2 h3
        subst h1
        exact hfl
    · rw [step_op12 r m fl pc input _ hpc rfl hop] at h
      split at h
      · split at h
        · injection h with h1 h2 h3
          subst h1
          exact hfl
        · exact StepResult.noConfusion h
      · injection h with h1 h2 h3
        subst h1
        exact hfl
    · rw [step_op13 r m fl pc input _ hpc rfl hop] at h
      injection h with h1 h2 h3
      subst h1
      exact hfl
    · rw [step_opHigh r m fl pc input _ hpc rfl hop] at h
      injection h with h1 h2 h3
      subst h1
      exact hfl
  · rw [step_fault_oob r m fl pc input hpc] at h
    exact StepResult.noConfusion h

/-! ## Claims -/

/-- C1 (counterexample): the decode fault does not apply to every cycle.  The
program `[0xD2000041, 0xF0000000, 0x70000000]` passes the pre-loop check (its
word 0 has opcode 13); its first cycle loads 65 into register 1; its second
cycle fetches `0xF0000000`, whose opcode field is 15 > 13, yet the engine does
not fault — the cycle is a no-op that advances the program counter to 2. -/
theorem C1_counterexample :
    preloopFaults [3523215425, 4026531840, 1879048192] = false ∧
    get OP 4026531840 = 15 ∧
    step (initVM [3523215425, 4026531840, 1879048192]) [] =
      .ok ⟨[0, 65, 0, 0, 0, 0, 0, 0], [[3523215425, 4026531840, 1879048192]], [], 1⟩ [] [] ∧
    step ⟨[0, 65, 0, 0, 0, 0, 0, 0], [[3523215425, 4026531840, 1879048192]], [], 1⟩ [] =
      .ok ⟨[0, 65, 0, 0, 0, 0, 0, 0], [[3523215425, 4026531840, 1879048192]], [], 2⟩ [] [] := by
  decide

/-- C1 (amended): the opcode-greater-than-13 fault is raised by the check the
engine performs once, before entering the dispatch loop, on the word at index
0 of the program (`src/um.rs`, lines 252-255): if the opcode field of that
word exceeds 13 the engine terminates with non-zero status. -/
theorem C1_decode_fault (instructions : List Nat) (w : Nat)
    (hw : instructions.getD 0 0 = w) (hop : 13 < get OP w) :
    preloopFaults instructions = true := by
  cases instructions with
  | nil => rfl
  | cons a l =>
    rw [List.getD_cons_zero] at hw
    subst hw
    exact decide_eq_true hop

/-- C1 witness: the one-word program `[0xF0000000]` (opcode 15) aborts at the
pre-loop check. -/
theorem C1_decode_fault_witness : preloopFaults [4026531840] = true :=
  C1_decode_fault [4026531840] 4026531840 (by decide) (by decide)

/-- C2 (counterexample): opcode 9 does not fault on an unmapped identifier.
Here the fetched word `0x90000000` has opcode 9 and register selector C = 0,
`R[C] = 5`, and the segment table has length 1 (only segment zero is mapped),
so identifier 5 is not currently mapped — yet the cycle succeeds and pushes 5
onto the free list. -/
theorem C2_counterexample :
    get OP 2415919104 = 9 ∧
    List.getD [5, 0, 0, 0, 0, 0, 0, 0] (get RC 2415919104) 0 = 5 ∧
    List.length [[2415919104]] = 1 ∧
    step ⟨[5, 0, 0, 0, 0, 0, 0, 0], [[2415919104]], [], 0⟩ [] =
      .ok ⟨[5, 0, 0, 0, 0, 0, 0, 0], [[2415919104]], [5], 1⟩ [] [] := by
  decide

/-- C2 (amended): executing opcode 9 (Unmap Segment) faults if and only if
`R[C] = 0`; when `R[C] ≠ 0` it pushes `R[C]` onto the free list whether or not
`R[C]` identifies a currently mapped segment. -/
theorem C2_unmap (r : List Nat) (m : List (List Nat)) (fl : List Nat)
    (pc : Nat) (input : List Nat) (w : Nat)
    (hpc : pc < (m.getD 0 []).length)
    (hw : (m.getD 0 []).getD pc 0 = w)
    (hop : get OP w = 9) :
    (step ⟨r, m, fl, pc⟩ input = .fault ↔ r.getD (get RC w) 0 = 0) ∧
    (r.getD (get RC w) 0 ≠ 0 →
      step ⟨r, m, fl, pc⟩ input =
        .ok ⟨r, m, fl ++ [r.getD (get RC w) 0], pc + 1⟩ input []) := by
  have hs := step_op9 r m fl pc input w hpc hw hop
  by_cases hc : r.getD (get RC w) 0 = 0
  · rw [if_pos hc] at hs
    exact ⟨iff_of_true hs hc, fun hcc => absurd hc hcc⟩
  · rw [if_neg hc] at hs
    refine ⟨iff_of_false (fun h => ?_) hc, fun _ => hs⟩
    rw [hs] at h
    exact StepResult.noConfusion h

/-- C2 witness: with `R[C] = 3` and an opcode-9 word, the step does not fault
and 3 is pushed onto the free list. -/
theorem C2_unmap_witness :
    step ⟨[3, 0, 0, 0, 0, 0, 0, 0], [[2415919104]], [7], 0⟩ [] =
      .ok ⟨[3, 0, 0, 0, 0, 0, 0, 0], [[2415919104]], [7, 3], 1⟩ [] [] := by
  have h := C2_unmap [3, 0, 0, 0, 0, 0, 0, 0] [[2415919104]] [7] 0 [] 2415919104
    (by decide) (by decide) (by decide)
  exact (h.2 (by decide)).trans (by decide)

/-- C6: executing opcode 5 (Div) faults iff `R[C] = 0`; when `R[C] ≠ 0` it
sets `R[A]` to the truncating unsigned quotient `R[B] / R[C]` and leaves every
register other than `R[A]` unchanged. -/
theorem C6_div (r : List Nat) (m : List (List Nat)) (fl : List Nat)
    (pc : Nat) (input : List Nat) (w : Nat)
    (hpc : pc < (m.getD 0 []).length)
    (hw : (m.getD 0 []).getD pc 0 = w)
    (hop : get OP w = 5) :
    (step ⟨r, m, fl, pc⟩ input = .fault ↔ r.getD (get RC w) 0 = 0) ∧
    (r.getD (get RC w) 0 ≠ 0 →
      step ⟨r, m, fl, pc⟩ input =
        .ok ⟨r.set (get RA w) (r.getD (get RB w) 0 / r.getD (get RC w) 0),
             m, fl, pc + 1⟩ input []) ∧
    (∀ vm' inp' outp, step ⟨r, m, fl, pc⟩ input = .ok vm' inp' outp →
      ∀ j, j ≠ get RA w → vm'.registers.getD j 0 = r.getD j 0) := by
  have hs := step_op5 r m fl pc input w hpc hw hop
  by_cases hc : r.getD (get RC w) 0 = 0
  · rw [if_pos hc] at hs
    refine ⟨iff_of_true hs hc, fun hcc => absurd hc hcc, ?_⟩
    intro vm' inp' outp hok
    rw [hs] at hok
    exact StepResult.noConfusion hok
  · rw [if_neg hc] at hs
    refine ⟨iff_of_false (fun h => by rw [hs] at h; exact StepResult.noConfusion h) hc,
      fun _ => hs, ?_⟩
    intro vm' inp' outp hok j hj
    rw [hs] at hok
    injection hok with hvm hinp houtp
    subst hvm
    exact getD_set_ne r (get RA w) j _ 0 (Ne.symm hj)

/-- C6 witness: dividing `R[B] = 10` by `R[C] = 2` (word `0x50000081`: opcode
5, A = 2, B = 0, C = 1) stores 5 in register 2 and faults nowhere. -/
theorem C6_div_witness :
    step ⟨[10, 2, 0, 0, 0, 0, 0, 0], [[1342177409]], [], 0⟩ [] =
      .ok ⟨[10, 2, 5, 0, 0, 0, 0, 0], [[1342177409]], [], 1⟩ [] [] := by
  have h := C6_div [10, 2, 0, 0, 0, 0, 0, 0] [[1342177409]] [] 0 [] 1342177409
    (by decide) (by decide) (by decide)
  exact (h.2.1 (by decide)).trans (by decide)

/-- C7: executing opcode 10 (Output) faults iff `R[C] > 255`; when
`R[C] ≤ 255` the cycle emits exactly the one byte `R[C]` (written and
flushed) and changes nothing but the program counter. -/
theorem C7_output (r : List Nat) (m : List (List Nat)) (fl : List Nat)
    (pc : Nat) (input : List Nat) (w : Nat)
    (hpc : pc < (m.getD 0 []).length)
    (hw : (m.getD 0 []).getD pc 0 = w)
    (hop : get OP w = 10) :
    (step ⟨r, m, fl, pc⟩ input = .fault ↔ 255 < r.getD (get RC w) 0) ∧
    (r.getD (get RC w) 0 ≤ 255 →
      step ⟨r, m, fl, pc⟩ input =
        .ok ⟨r, m, fl, pc + 1⟩ input [r.getD (get RC w) 0]) := by
  have hs := step_op10 r m fl pc input w hpc hw hop
  by_cases hc : 255 < r.getD (get RC w) 0
  · rw [if_pos hc] at hs
    exact ⟨iff_of_true hs hc, fun hcc => absurd hc (by omega)⟩
  · rw [if_neg hc] at hs
    exact ⟨iff_of_false (fun h => by rw [hs] at h; exact StepResult.noConfusion h) hc,
      fun _ => hs⟩

/-- C7 witness: outputting `R[C] = 65` (word `0xA0000001`: opcode 10, C = 1)
emits the single byte 65. -/
theorem C7_output_witness :
    step ⟨[0, 65, 0, 0, 0, 0, 0, 0], [[2684354561]], [], 0⟩ [] =
      .ok ⟨[0, 65, 0, 0, 0, 0, 0, 0], [[2684354561]], [], 1⟩ [] [65] := by
  have h := C7_output [0, 65, 0, 0, 0, 0, 0, 0] [[2684354561]] [] 0 [] 2684354561
    (by decide) (by decide) (by decide)
  exact (h.2 (by decide)).trans (by decide)

/-- C8: opcode 3 stores `(R[B] + R[C]) mod 2^32` and opcode 4 stores
`(R[B] * R[C]) mod 2^32` into `R[A]`; both always produce an `ok` cycle —
the arithmetic wraps and never faults. -/
theorem C8_arith_wrap (r : List Nat) (m : List (List Nat)) (fl : List Nat)
    (pc : Nat) (input : List Nat) (w : Nat)
    (hpc : pc < (m.getD 0 []).length)
    (hw : (m.getD 0 []).getD pc 0 = w) :
    (get OP w = 3 →
      step ⟨r, m, fl, pc⟩ input =
        .ok ⟨r.set (get RA w) ((r.getD (get RB w) 0 + r.getD (get RC w) 0) % 2 ^ 32),
             m, fl, pc + 1⟩ input []) ∧
    (get OP w = 4 →
      step ⟨r, m, fl, pc⟩ input =
        .ok ⟨r.set (get RA w) ((r.getD (get RB w) 0 * r.getD (get RC w) 0) % 2 ^ 32),
             m, fl, pc + 1⟩ input []) :=
  ⟨fun hop => step_op3 r m fl pc input w hpc hw hop,
   fun hop => step_op4 r m fl pc input w hpc hw hop⟩

/-- C8 witness: adding `R[B] = 2^32 - 1` and `R[C] = 2` (word `0x30000041`:
opcode 3, A = 1, B = 0, C = 1) wraps around to 1. -/
theorem C8_arith_wrap_witness :
    step ⟨[4294967295, 2, 0, 0, 0, 0, 0, 0], [[805306433]], [], 0⟩ [] =
      .ok ⟨[4294967295, 1, 0, 0, 0, 0, 0, 0], [[805306433]], [], 1⟩ [] [] := by
  have h := C8_arith_wrap [4294967295, 2, 0, 0, 0, 0, 0, 0] [[805306433]] [] 0 [] 805306433
    (by decide) (by decide)
  exact (h.1 (by decide)).trans (by decide)

/-- C9: inside the dispatch loop a fetched word whose opcode field exceeds 13
(value 14 or 15) matches none of the `if opcode == k` branches: the cycle
leaves the registers, segment table and free list unchanged, emits nothing,
consumes no input, advances the program counter by one, and raises no
fault. -/
theorem C9_high_opcode_noop (r : List Nat) (m : List (List Nat)) (fl : List Nat)
    (pc : Nat) (input : List Nat) (w : Nat)
    (hpc : pc < (m.getD 0 []).length)
    (hw : (m.getD 0 []).getD pc 0 = w)
    (hop : 13 < get OP w) :
    step ⟨r, m, fl, pc⟩ input = .ok ⟨r, m, fl, pc + 1⟩ input [] := by
  have h0 : get OP w ≠ 0 := by omega
  have h1 : get OP w ≠ 1 := by omega
  have h2 : get OP w ≠ 2 := by omega
  have h3 : get OP w ≠ 3 := by omega
  have h4 : get OP w ≠ 4 := by omega
  have h5 : get OP w ≠ 5 := by omega
  have h6 : get OP w ≠ 6 := by omega
  have h7 : get OP w ≠ 7 := by omega
  have h8 : get OP w ≠ 8 := by omega
  have h9 : get OP w ≠ 9 := by omega
  have hA : get OP w ≠ 10 := by omega
  have hB : get OP w ≠ 11 := by omega
  have hC : get OP w ≠ 12 := by omega
  have hD : get OP w ≠ 13 := by omega
  simp only [step]
  rw [if_pos hpc, hw]
  simp only [if_neg h0, if_neg h1, if_neg h2, if_neg h3, if_neg h4, if_neg h5, if_neg h6,
    if_neg h7, if_neg h8, if_neg h9, if_neg hA, if_neg hB, if_neg hC, if_neg hD]

/-- C9 witness: the cycle fetching `0xF0000000` (opcode 15) at index 1 only
moves the program counter from 1 to 2. -/
theorem C9_high_opcode_noop_witness :
    step ⟨[0, 65, 0, 0, 0, 0, 0, 0], [[3523215425, 4026531840]], [4], 1⟩ [9] =
      .ok ⟨[0, 65, 0, 0, 0, 0, 0, 0], [[3523215425, 4026531840]], [4], 2⟩ [9] [] :=
  C9_high_opcode_noop [0, 65, 0, 0, 0, 0, 0, 0] [[3523215425, 4026531840]] [4] 1 [9]
    4026531840 (by decide) (by decide) (by decide)

/-- C10: executing opcode 9 with `R[C] = k ≠ 0` leaves the segment table
exactly as it was (the same list of segments, so the same length and the same
contents at every index, including `k`); the only changes are that `k` is
appended to the free list and the program counter advances by one. -/
theorem C10_unmap_frame (r : List Nat) (m : List (List Nat)) (fl : List Nat)
    (pc : Nat) (input : List Nat) (w : Nat)
    (hpc : pc < (m.getD 0 []).length)
    (hw : (m.getD 0 []).getD pc 0 = w)
    (hop : get OP w = 9)
    (hc : r.getD (get RC w) 0 ≠ 0) :
    step ⟨r, m, fl, pc⟩ input =
      .ok ⟨r, m, fl ++ [r.getD (get RC w) 0], pc + 1⟩ input [] := by
  rw [step_op9 r m fl pc input w hpc hw hop, if_neg hc]

/-- C3: for a cycle whose fetched word has opcode 12 (Load Program): every
successful outcome sets the program counter to `R[C]`; when `R[B] = 0` the
segment table (in particular segment zero) is unchanged; when `R[B] = k ≠ 0`
and `k` is a table index, segment zero is replaced by the contents of segment
`k` as a value — so overwriting segment `k` afterwards (with any sequence)
leaves segment zero still equal to segment `k`'s old contents. -/
theorem C3_load_program (r : List Nat) (m : List (List Nat)) (fl : List Nat)
    (pc : Nat) (input : List Nat) (w : Nat)
    (hpc : pc < (m.getD 0 []).length)
    (hw : (m.getD 0 []).getD pc 0 = w)
    (hop : get OP w = 12) :
    (∀ vm' inp' outp, step ⟨r, m, fl, pc⟩ input = .ok vm' inp' outp →
      vm'.program_counter = r.getD (get RC w) 0) ∧
    (r.getD (get RB w) 0 = 0 →
      step ⟨r, m, fl, pc⟩ input = .ok ⟨r, m, fl, r.getD (get RC w) 0⟩ input []) ∧
    (r.getD (get RB w) 0 ≠ 0 → r.getD (get RB w) 0 < m.length →
      step ⟨r, m, fl, pc⟩ input =
        .ok ⟨r, m.set 0 (m.getD (r.getD (get RB w) 0) []), fl,
             r.getD (get RC w) 0⟩ input [] ∧
      ∀ seg : List Nat,
        ((m.set 0 (m.getD (r.getD (get RB w) 0) [])).set (r.getD (get RB w) 0) seg).getD 0 [] =
          m.getD (r.getD (get RB w) 0) []) := by
  have hs := step_op12 r m fl pc input w hpc hw hop
  have hm0 : 0 < m.length := by
    cases m with
    | nil => simp at hpc
    | cons s t => simp
  refine ⟨?_, ?_, ?_⟩
  · intro vm' inp' outp hok
    rw [hs] at hok
    by_cases hb : r.getD (get RB w) 0 ≠ 0
    · rw [if_pos hb] at hok
      by_cases hlen : r.getD (get RB w) 0 < m.length
      · rw [if_pos hlen] at hok
        injection hok with h1 h2 h3
        subst h1
        rfl
      · rw [if_neg hlen] at hok
        exact StepResult.noConfusion hok
    · rw [if_neg hb] at hok
      injection hok with h1 h2 h3
      subst h1
      rfl
  · intro hb0
    rw [hs, if_neg (fun hb => hb hb0)]
  · intro hb hlen
    refine ⟨by rw [hs, if_pos hb, if_pos hlen], ?_⟩
    intro seg
    rw [getD_set_ne _ (r.getD (get RB w) 0) 0 seg [] hb]
    exact getD_set_self m 0 (m.getD (r.getD (get RB w) 0) []) [] hm0

/-- C3 witness: opcode 12 with `R[B] = 1`, `R[C] = 3` (word `0xC0000008`)
copies segment 1 (`[7, 8, 9]`) into segment zero and jumps to index 3. -/
theorem C3_load_program_witness :
    step ⟨[3, 1, 0, 0, 0, 0, 0, 0], [[3221225480], [7, 8, 9]], [], 0⟩ [] =
      .ok ⟨[3, 1, 0, 0, 0, 0, 0, 0], [[7, 8, 9], [7, 8, 9]], [], 3⟩ [] [] := by
  have h := C3_load_program [3, 1, 0, 0, 0, 0, 0, 0] [[3221225480], [7, 8, 9]] [] 0 []
    3221225480 (by decide) (by decide) (by decide)
  exact ((h.2.2 (by decide) (by decide)).1).trans (by decide)

/-- C5 (counterexample): opcode 8 does not always follow the claimed
algorithm.  Reachable trace: `0xD0000007` loads 7 into register 0,
`0x90000000` (opcode 9) pushes the unmapped identifier 7 onto the free list
(the table still has only segment zero), and the opcode-8 word `0x80000008`
then pops 7 — the claimed algorithm (`map_spec`) succeeds and returns
identifier 7, but the machine faults at the out-of-bounds store
`memory[7] = new_segment` (`src/um.rs` line 315). -/
theorem C5_counterexample :
    preloopFaults [3489660935, 2415919104, 2147483656] = false ∧
    step (initVM [3489660935, 2415919104, 2147483656]) [] =
      .ok ⟨[7, 0, 0, 0, 0, 0, 0, 0], [[3489660935, 2415919104, 2147483656]], [], 1⟩ [] [] ∧
    step ⟨[7, 0, 0, 0, 0, 0, 0, 0], [[3489660935, 2415919104, 2147483656]], [], 1⟩ [] =
      .ok ⟨[7, 0, 0, 0, 0, 0, 0, 0], [[3489660935, 2415919104, 2147483656]], [7], 2⟩ [] [] ∧
    get OP 2147483656 = 8 ∧
    map_spec [[3489660935, 2415919104, 2147483656]] [7]
        (List.getD [7, 0, 0, 0, 0, 0, 0, 0] (get RC 2147483656) 0) =
      ([[3489660935, 2415919104, 2147483656]], [], 7) ∧
    step ⟨[7, 0, 0, 0, 0, 0, 0, 0], [[3489660935, 2415919104, 2147483656]], [7], 2⟩ [] =
      .fault := by
  decide

/-- C5 (amended): a cycle whose fetched word has opcode 8 performs exactly
the algorithm `map_amended`, with no side conditions: build a zero-filled
sequence of `R[C]` words; if the free list is non-empty, pop the most
recently pushed identifier, reduce it modulo `2^32` (the `usize`-to-`u32`
cast), place the result in `R[B]` and store the sequence at that table
index, faulting when that index is outside the table; if the free list is
empty, append the sequence and place the new tail index modulo `2^32` in
`R[B]`. -/
theorem C5_map_amended (r : List Nat) (m : List (List Nat)) (fl : List Nat)
    (pc : Nat) (input : List Nat) (w : Nat)
    (hpc : pc < (m.getD 0 []).length)
    (hw : (m.getD 0 []).getD pc 0 = w)
    (hop : get OP w = 8) :
    (map_amended m fl (r.getD (get RC w) 0) = none →
      step ⟨r, m, fl, pc⟩ input = .fault) ∧
    (∀ m2 fl2 id, map_amended m fl (r.getD (get RC w) 0) = some (m2, fl2, id) →
      step ⟨r, m, fl, pc⟩ input =
        .ok ⟨r.set (get RB w) id, m2, fl2, pc + 1⟩ input []) := by
  have hs := step_op8 r m fl pc input w hpc hw hop
  by_cases hfe : fl = []
  · subst hfe
    have hne : ¬(([] : List Nat) ≠ []) := by simp
    constructor
    · intro hnone
      simp [map_amended] at hnone
    · intro m2 fl2 id hsome
      simp only [map_amended, List.getLast?_nil] at hsome
      rw [Option.some.injEq, Prod.mk.injEq, Prod.mk.injEq] at hsome
      obtain ⟨rfl, rfl, rfl⟩ := hsome
      rw [hs, if_neg hne]
  · have hgl : fl.getLastD 0 = fl.getLast hfe := by
      simp [List.getLastD_eq_getLast?, List.getLast?_eq_getLast _ hfe]
    constructor
    · intro hnone
      simp only [map_amended, List.getLast?_eq_getLast _ hfe] at hnone
      by_cases hid : fl.getLast hfe % 2 ^ 32 < m.length
      · rw [if_pos hid] at hnone
        exact Option.noConfusion hnone
      · rw [hs, if_pos hfe, hgl, if_neg hid]
    · intro m2 fl2 id hsome
      simp only [map_amended, List.getLast?_eq_getLast _ hfe] at hsome
      by_cases hid : fl.getLast hfe % 2 ^ 32 < m.length
      · rw [if_pos hid, Option.some.injEq, Prod.mk.injEq, Prod.mk.injEq] at hsome
        obtain ⟨rfl, rfl, rfl⟩ := hsome
        rw [hs, if_pos hfe, hgl, if_pos hid]
      · rw [if_neg hid] at hsome
        exact Option.noConfusion hsome

/-- C5 witness: mapping a 3-word segment with free list `[1]` in a 2-segment
table pops 1, stores `[0, 0, 0]` at index 1 and puts 1 in `R[B]` (word
`0x80000008`: opcode 8, B = 1, C = 0; `R[C] = R[0] = 3`). -/
theorem C5_map_amended_witness :
    step ⟨[3, 0, 0, 0, 0, 0, 0, 0], [[2147483656], [1, 2]], [1], 0⟩ [] =
      .ok ⟨[3, 1, 0, 0, 0, 0, 0, 0], [[2147483656], [0, 0, 0]], [], 1⟩ [] [] := by
  have h := (C5_map_amended [3, 0, 0, 0, 0, 0, 0, 0] [[2147483656], [1, 2]] [1] 0 []
    2147483656 (by decide) (by decide) (by decide)).2
    [[2147483656], [0, 0, 0]] [] 1 (by decide)
  exact h.trans (by decide)

/-- C4 (counterexample): the append path does not always return an
identifier of at least 1.  In a state whose segment table already has
exactly `2^32` segments and whose free list is empty, the opcode-8 word
`0x80000008` (B = 1, C = 0, `R[C] = 0`) appends a segment and the cast
`(memory.len() - 1) as u32` (`src/um.rs` line 320) wraps `2^32` to 0, so the
cycle succeeds and places identifier 0 in `R[B]`. -/
theorem C4_counterexample :
    get OP 2147483656 = 8 ∧
    (([2147483656] : List Nat) :: List.replicate (2 ^ 32 - 1) ([] : List Nat)).length =
      2 ^ 32 ∧
    step ⟨[0, 0, 0, 0, 0, 0, 0, 0],
          ([2147483656] : List Nat) :: List.replicate (2 ^ 32 - 1) [], [], 0⟩ [] =
      .ok ⟨[0, 0, 0, 0, 0, 0, 0, 0],
           (([2147483656] : List Nat) :: List.replicate (2 ^ 32 - 1) []) ++ [[]],
           [], 1⟩ [] [] ∧
    ([0, 0, 0, 0, 0, 0, 0, 0] : List Nat).getD (get RB 2147483656) 0 = 0 := by
  refine ⟨by decide, ?_, ?_, by decide⟩
  · rw [List.length_cons, List.length_replicate]
    omega
  · have hpc : (0 : Nat) <
        (((([2147483656] : List Nat) :: List.replicate (2 ^ 32 - 1) []).getD 0 []).length) := by
      rw [List.getD_cons_zero]
      decide
    have hw : ((([2147483656] : List Nat) :: List.replicate (2 ^ 32 - 1) []).getD 0 []).getD
        0 0 = 2147483656 := by
      rw [List.getD_cons_zero]
      decide
    rw [step_op8 [0, 0, 0, 0, 0, 0, 0, 0]
      (([2147483656] : List Nat) :: List.replicate (2 ^ 32 - 1) []) [] 0 [] 2147483656
      hpc hw (by decide)]
    have hne : ¬(([] : List Nat) ≠ []) := by simp
    rw [if_neg hne]
    have hrc : List.getD [0, 0, 0, 0, 0, 0, 0, 0] (get RC 2147483656) 0 = 0 := by decide
    rw [hrc]
    have hrep : List.replicate (0 : Nat) (0 : Nat) = [] := rfl
    rw [hrep]
    have hlen : (((([2147483656] : List Nat) :: List.replicate (2 ^ 32 - 1) []) ++
        [([] : List Nat)]).length - 1) % 2 ^ 32 = 0 := by
      rw [List.length_append, List.length_cons, List.length_replicate,
        List.length_singleton]
      omega
    rw [hlen]
    have hb : get RB 2147483656 = 1 := by decide
    rw [hb]
    rfl

/-- C4 (amended): no successful cycle ever puts identifier 0 on the free
list, and free-list entries — pushed from `u32` registers — stay below
`2^32`; under those invariants, and while the segment table has fewer than
`2^32` segments (beyond that the `u32` cast of the append index wraps to 0,
see the counterexample), every opcode-8 cycle that completes without
faulting places in `R[B]` an identifier that is not 0 — the append path
yields the old table length, which is at least 1 — such that every word of
the freshly mapped segment at indices `0 .. R[C] - 1` reads as 0. -/
theorem C4_map_nonzero_id (r : List Nat) (m : List (List Nat)) (fl : List Nat)
    (pc : Nat) (input : List Nat) (w : Nat)
    (hpc : pc < (m.getD 0 []).length)
    (hw : (m.getD 0 []).getD pc 0 = w)
    (hop : get OP w = 8)
    (hr : r.length = 8)
    (hfl0 : 0 ∉ fl)
    (hflu : ∀ x ∈ fl, x < 2 ^ 32)
    (hmlen : m.length < 2 ^ 32) :
    (∀ (um : VM) (inp : List Nat) (vm2 : VM) (inp2 outp2 : List Nat),
        0 ∉ um.unmap_index_values → step um inp = .ok vm2 inp2 outp2 →
        0 ∉ vm2.unmap_index_values) ∧
    (∀ (um : VM) (inp : List Nat) (vm2 : VM) (inp2 outp2 : List Nat),
        (∀ x ∈ um.registers, x < 2 ^ 32) →
        (∀ x ∈ um.unmap_index_values, x < 2 ^ 32) →
        step um inp = .ok vm2 inp2 outp2 →
        ∀ x ∈ vm2.unmap_index_values, x < 2 ^ 32) ∧
    ∀ vm' inp' outp, step ⟨r, m, fl, pc⟩ input = .ok vm' inp' outp →
      vm'.registers.getD (get RB w) 0 ≠ 0 ∧
      ∀ i < r.getD (get RC w) 0,
        (vm'.memory.getD (vm'.registers.getD (get RB w) 0) []).getD i 0 = 0 := by
  refine ⟨step_freelist_zero, step_freelist_u32, ?_⟩
  have hs := step_op8 r m fl pc input w hpc hw hop
  have hb : get RB w < 8 := by
    have h1 : get RB w ≤ mask RB.width := Nat.and_le_right
    have h2 : mask RB.width = 7 := rfl
    omega
  have hbr : get RB w < r.length := by omega
  have hm0 : 0 < m.length := by
    cases m with
    | nil => simp at hpc
    | cons s t => simp
  intro vm' inp' outp hok
  rw [hs] at hok
  by_cases hfe : fl = []
  · subst hfe
    have hne : ¬(([] : List Nat) ≠ []) := by simp
    rw [if_neg hne] at hok
    injection hok with h1 h2 h3
    subst h1
    have hlen1 : ((m ++ [List.replicate (r.getD (get RC w) 0) 0]).length - 1) % 2 ^ 32 =
        m.length := by
      simp only [List.length_append, List.length_singleton]
      omega
    constructor
    · rw [getD_set_self r (get RB w) _ 0 hbr, hlen1]
      omega
    · intro i hi
      rw [getD_set_self r (get RB w) _ 0 hbr, hlen1]
      have happ : (m ++ [List.replicate (r.getD (get RC w) 0) 0]).getD m.length [] =
          List.replicate (r.getD (get RC w) 0) 0 := by
        rw [List.getD_eq_getElem?_getD]
        simp [List.getElem?_append_right]
      rw [happ, List.getD_eq_getElem?_getD, List.getElem?_replicate]
      split
      · rfl
      · rfl
  · have hgl : fl.getLastD 0 = fl.getLast hfe := by
      simp [List.getLastD_eq_getLast?, List.getLast?_eq_getLast _ hfe]
    rw [if_pos hfe] at hok
    by_cases hid : fl.getLastD 0 % 2 ^ 32 < m.length
    · rw [if_pos hid] at hok
      injection hok with h1 h2 h3
      subst h1
      have hmem := List.getLast_mem hfe
      have hmod : fl.getLastD 0 % 2 ^ 32 = fl.getLast hfe := by
        rw [hgl]
        exact Nat.mod_eq_of_lt (hflu _ hmem)
      constructor
      · rw [getD_set_self r (get RB w) _ 0 hbr, hmod]
        intro h00
        exact hfl0 (h00 ▸ hmem)
      · intro i hi
        rw [getD_set_self r (get RB w) _ 0 hbr,
          getD_set_self m (fl.getLastD 0 % 2 ^ 32)
            (List.replicate (r.getD (get RC w) 0) 0) [] hid,
          List.getD_eq_getElem?_getD, List.getElem?_replicate]
        split
        · rfl
        · rfl
    · rw [if_neg hid] at hok
      exact StepResult.noConfusion hok

/-- C4 witness: mapping with free list `[1]` in a 2-segment table succeeds
and returns identifier 1, which is non-zero. -/
theorem C4_map_nonzero_id_witness :
    step ⟨[3, 0, 0, 0, 0, 0, 0, 0], [[2147483656], [9, 9]], [1], 0⟩ [] =
      .ok ⟨[3, 1, 0, 0, 0, 0, 0, 0], [[2147483656], [0, 0, 0]], [], 1⟩ [] [] ∧
    ([3, 1, 0, 0, 0, 0, 0, 0] : List Nat).getD (get RB 2147483656) 0 ≠ 0 := by
  have hstep : step ⟨[3, 0, 0, 0, 0, 0, 0, 0], [[2147483656], [9, 9]], [1], 0⟩ [] =
      .ok ⟨[3, 1, 0, 0, 0, 0, 0, 0], [[2147483656], [0, 0, 0]], [], 1⟩ [] [] := by
    decide
  have h := (C4_map_nonzero_id [3, 0, 0, 0, 0, 0, 0, 0] [[2147483656], [9, 9]] [1] 0 []
    2147483656 (by decide) (by decide) (by decide) (by decide) (by decide) (by decide)
    (by decide)).2.2 _ _ _ hstep
  exact ⟨hstep, h.1⟩

/-- C10 witness: unmapping `R[C] = 2` with two segments mapped leaves both
segments in place and appends 2 to the free list. -/
theorem C10_unmap_frame_witness :
    step ⟨[2, 0, 0, 0, 0, 0, 0, 0], [[2415919104], [8, 9]], [], 0⟩ [] =
      .ok ⟨[2, 0, 0, 0, 0, 0, 0, 0], [[2415919104], [8, 9]], [2], 1⟩ [] [] :=
  C10_unmap_frame [2, 0, 0, 0, 0, 0, 0, 0] [[2415919104], [8, 9]] [] 0 [] 2415919104
    (by decide) (by decide) (by decide) (by decide)

end RUM
